import Mathlib

/-!
Verification development for the retrieval-and-ranking core of a semantic
search service (`src/search/service.py`, `src/search/models.py`).

Embedding conventions:
* Python floats are modelled as exact rationals (`ℚ`); all score arithmetic
  in the source is elementary (+, *, min, /), so this is faithful up to
  floating-point rounding, which no claim is about.
* The embedding provider is modelled as a deterministic total function
  `String → List ℚ`; each invocation of it is counted in `EmbedState.calls`.
* The vector store is modelled as an oracle function producing the list of
  points the store would return; claims about post-processing hold for every
  oracle response.
* Python exceptions at the store boundary are modelled with `Except`.
* The cosine-similarity measure used by the MMR reranker involves a real
  square root (`math.sqrt`), which has no exact rational counterpart; the
  reranker is therefore parametrized by the similarity measure `sim`, and
  all theorems about it are proved for every `sim`, hence in particular for
  the source's `_cosine_similarity`.
-/

/-- Configuration snapshot, mirroring `SearchConfig` in `models.py`
(only the fields the retrieval core reads). -/
structure SearchConfig where
  qdrant_collection : String
  default_limit : Nat
  default_similarity_threshold : ℚ
  hybrid_semantic_weight : ℚ
  mmr_lambda : ℚ
  embedding_dimension : Nat
deriving DecidableEq

/-- The defaults hard-coded in `models.py`. -/
def SearchConfig.default : SearchConfig where
  qdrant_collection := "local-docs-collection"
  default_limit := 10
  default_similarity_threshold := 15/100
  hybrid_semantic_weight := 85/100
  mmr_lambda := 75/100
  embedding_dimension := 1024

/-- One ranked passage, mirroring the `SearchResult` dataclass. -/
structure SearchResult where
  id : String
  filename : String
  text : String
  score : ℚ
  embedding : List ℚ
  location : Int
  token_count : Option Int
  start_index : Option Int
  end_index : Option Int
deriving DecidableEq

/-- A point returned by the vector store: payload fields are optional
(`payload.get` with defaults in the source), the vector may be absent
(`hasattr(result, 'vector')`). -/
structure QdrantPoint where
  payload_id : Option String
  payload_filename : Option String
  payload_text : Option String
  payload_location : Option Int
  payload_token_count : Option Int
  payload_start_index : Option Int
  payload_end_index : Option Int
  score : ℚ
  vector : Option (List ℚ)
deriving DecidableEq

/-- Python `x or default` on an optional integer argument: `None` and `0`
are both falsy, so both select the default (`service.py` lines 118, 165, 285). -/
def pyOrNat (x : Option Nat) (d : Nat) : Nat :=
  match x with
  | none => d
  | some v => if v = 0 then d else v

/-- Python `x or default` on an optional float argument: `None` and `0.0`
are both falsy, so both select the default (`service.py` lines 119, 166, 286). -/
def pyOrQ (x : Option ℚ) (d : ℚ) : ℚ :=
  match x with
  | none => d
  | some v => if v = 0 then d else v

/-- Python `str.strip()`: drop leading and trailing whitespace.  We work on
the character list of the string so that every operation reduces in the
kernel (Lean's own `String.trim` is built on `Substring` primitives that do
not). -/
def pyStrip (s : String) : List Char :=
  ((s.data.dropWhile Char.isWhitespace).reverse.dropWhile Char.isWhitespace).reverse

/-- Python `str.lower()` on a character list. -/
def pyLower (cs : List Char) : List Char :=
  cs.map Char.toLower

/-- Mutable state owned by the service facade: the embedding cache
(`self._embedding_cache`, keyed by the trimmed query) plus an
instrumentation counter of embedding-provider round trips. -/
structure EmbedState where
  cache : List (List Char × List ℚ)
  calls : Nat
deriving DecidableEq

/-- `SemanticSearchService._embed_query` (service.py lines 40-82): trim the
query; an empty result yields a zero vector of the configured dimension with
no provider call; otherwise consult the cache, and on a miss call the
provider, inserting into the cache only while it holds fewer than 100
entries. -/
def embed_query (cfg : SearchConfig) (provider : List Char → List ℚ)
    (query : String) (st : EmbedState) : List ℚ × EmbedState :=
  let normalized_query := pyStrip query
  if normalized_query = [] then
    (List.replicate cfg.embedding_dimension 0, st)
  else
    match st.cache.lookup normalized_query with
    | some v => (v, st)
    | none =>
      let embedding := provider normalized_query
      if st.cache.length < 100 then
        (embedding, ⟨st.cache ++ [(normalized_query, embedding)], st.calls + 1⟩)
      else
        (embedding, ⟨st.cache, st.calls + 1⟩)

/-- Two consecutive invocations of `_embed_query` with the same query,
threading the cache state. -/
def embed_query_twice (cfg : SearchConfig) (provider : List Char → List ℚ)
    (query : String) (st : EmbedState) :
    (List ℚ × EmbedState) × (List ℚ × EmbedState) :=
  (embed_query cfg provider query st,
   embed_query cfg provider query (embed_query cfg provider query st).2)

/-- `SemanticSearchService._convert_to_search_results` (service.py lines
84-99): map store points to `SearchResult`, with the same `payload.get`
defaults as the source. -/
def convert_to_search_results (qdrant_results : List QdrantPoint) : List SearchResult :=
  qdrant_results.map (fun result =>
    SearchResult.mk
      (result.payload_id.getD "")
      (result.payload_filename.getD "")
      (result.payload_text.getD "")
      result.score
      (result.vector.getD [])
      (result.payload_location.getD 0)
      result.payload_token_count
      result.payload_start_index
      result.payload_end_index)

/-- `SemanticSearchService.semantic_search` (service.py lines 101-142).
The store is an oracle mapping (query vector, score threshold, requested
limit) to the points it returns; the post-processing — client-side
re-filtering when the requested threshold is stricter than the default, and
truncation to `limit` — is modelled exactly. -/
def semantic_search (cfg : SearchConfig) (provider : List Char → List ℚ)
    (store : List ℚ → ℚ → Nat → List QdrantPoint) (query : String)
    (limit? : Option Nat) (min_similarity_score : Option ℚ)
    (st : EmbedState) : List SearchResult × EmbedState :=
  let limit := pyOrNat limit? cfg.default_limit
  let min_score := pyOrQ min_similarity_score cfg.default_similarity_threshold
  let e := embed_query cfg provider query st
  let search_results := store e.1 min_score (limit * 2)
  let results := convert_to_search_results search_results
  let results :=
    if min_score > cfg.default_similarity_threshold then
      results.filter (fun r => decide (min_score ≤ r.score))
    else results
  (results.take limit, e.2)

/-- Word characters of Python's regex `\w` (ASCII range). -/
def isWordChar (c : Char) : Bool :=
  c.isAlphanum || c = '_'

/-- Maximal runs of word characters, mirroring `re.findall(r'\b\w+\b', ...)`;
the accumulator holds the current run reversed. -/
def wordTokensAux : List Char → List Char → List (List Char)
  | [], acc => if acc = [] then [] else [acc.reverse]
  | c :: cs, acc =>
    if isWordChar c then wordTokensAux cs (c :: acc)
    else if acc = [] then wordTokensAux cs [] else acc.reverse :: wordTokensAux cs []

def wordTokens (cs : List Char) : List (List Char) :=
  wordTokensAux cs []

/-- The stopword list hard-coded in `_extract_search_terms`. -/
def simple_stopwords : List (List Char) :=
  (["the", "a", "an", "and", "or", "but", "in", "on", "at", "to", "for",
    "of", "with", "by", "from", "up", "about", "into", "through", "during",
    "before", "after", "above", "below", "between", "among", "is", "are",
    "was", "were", "be", "been", "being", "have", "has", "had", "do",
    "does", "did", "will", "would", "could", "should", "may", "might",
    "can", "this", "that", "these", "those", "i", "you", "he", "she",
    "it", "we", "they", "what", "which", "who", "when", "where", "why",
    "how", "not", "no", "yes", "if", "then", "else", "there", "here"] :
    List String).map String.data

/-- `SemanticSearchService._extract_search_terms` (service.py lines 399-432):
lower-case, tokenize on word characters, keep tokens longer than two
characters that are not stopwords. -/
def extract_search_terms (query : String) : List (List Char) :=
  let terms := wordTokens (pyLower query.data)
  terms.filter (fun term =>
    decide (2 < term.length) && !(simple_stopwords.contains term))

/-- Python's substring test `p in t` (for non-empty `p`; the empty string is
a substring of everything, matching Python). -/
def containsSub (p : List Char) : List Char → Bool
  | [] => p.isEmpty
  | c :: rest => p.isPrefixOf (c :: rest) || containsSub p rest

/-- Scanner for Python's non-overlapping `str.count`: `skip` counts
positions still covered by the previous match. -/
def countOccAux (p : List Char) : List Char → Nat → Nat
  | [], _ => 0
  | _ :: rest, Nat.succ k => countOccAux p rest k
  | c :: rest, 0 =>
    if p.isPrefixOf (c :: rest) then countOccAux p rest (p.length - 1) + 1
    else countOccAux p rest 0

/-- Python `t.count(p)` (non-overlapping occurrences; `len(t)+1` for the
empty pattern, as in Python). -/
def pyCount (p t : List Char) : Nat :=
  if p = [] then t.length + 1 else countOccAux p t 0

/-- Sanity check: Python `"aaaaa".count("aa")` is 2 (non-overlapping). -/
theorem pyCount_nonoverlapping_check :
    pyCount ['a', 'a'] ['a', 'a', 'a', 'a', 'a'] = 2 := by decide

/-- Sanity check: term extraction lower-cases, tokenizes and drops
stopwords and short tokens. -/
theorem extract_search_terms_check :
    extract_search_terms "The Database Connection!" =
      [['d','a','t','a','b','a','s','e'], ['c','o','n','n','e','c','t','i','o','n']] := by
  decide

/-- Python dict assignment `d[k] = v`: overwrite an existing binding in
place, otherwise append. -/
def dictInsert (k : String) (v : ℚ) : List (String × ℚ) → List (String × ℚ)
  | [] => [(k, v)]
  | (k', v') :: rest =>
    if k' = k then (k, v) :: rest else (k', v') :: dictInsert k v rest

/-- The term loop of `_calculate_keyword_scores` (service.py lines 464-475):
accumulate the count of matched terms and the sum of the capped
occurrence-density bonuses. -/
def term_match_fold (text_lower : List Char) (query_terms : List (List Char)) : Nat × ℚ :=
  query_terms.foldl
    (fun (acc : Nat × ℚ) term =>
      if containsSub term text_lower then
        (acc.1 + 1, acc.2 + min ((pyCount term text_lower : ℚ) / 10) (3/10))
      else acc)
    (0, 0)

/-- The per-result body of the loop in `_calculate_keyword_scores`
(service.py lines 458-494): term coverage, per-term occurrence bonuses,
full-phrase bonus, filename bonus, clamped to 1. -/
def keyword_score_of (query_terms : List (List Char)) (normalized_query : List Char)
    (result : SearchResult) : ℚ :=
  let text_lower := pyLower result.text.data
  let filename_lower := pyLower result.filename.data
  let term_count := query_terms.length
  let ms := term_match_fold text_lower query_terms
  let num_matches := ms.1
  let score := ms.2
  let score :=
    if normalized_query ≠ [] ∧ containsSub normalized_query text_lower then
      score + 3/10
    else score
  let filename_hits := (query_terms.filter (fun term => containsSub term filename_lower)).length
  let score :=
    if filename_lower ≠ [] ∧ filename_hits ≠ 0 then
      score + min ((filename_hits : ℚ) / term_count) (2/10)
    else score
  let base_score := (num_matches : ℚ) / term_count
  min (base_score + score) 1

/-- `SemanticSearchService._calculate_keyword_scores` (service.py lines
434-496): empty term list yields an empty mapping; otherwise build the
id → clamped-score dictionary over the results. -/
def calculate_keyword_scores (results : List SearchResult)
    (query_terms : List (List Char)) (raw_query : Option String) : List (String × ℚ) :=
  if query_terms = [] then []
  else
    let normalized_query := pyLower (pyStrip ((raw_query.getD "")))
    results.foldl
      (fun scores result =>
        dictInsert result.id (keyword_score_of query_terms normalized_query result) scores)
      []

/-- The per-result score-fusion arithmetic of `hybrid_search` (service.py
lines 192-205): boost a keyword score above 0.8 by the boost factor, clamp
to 1, then mix with the semantic score by `semantic_weight`. -/
def fuse_score (semantic_weight keyword_boost_factor keyword_score semantic_score : ℚ) : ℚ :=
  let keyword_score :=
    if keyword_score > 8/10 then keyword_score * keyword_boost_factor else keyword_score
  let normalized_semantic := semantic_score
  let normalized_keyword := min keyword_score 1
  semantic_weight * normalized_semantic + (1 - semantic_weight) * normalized_keyword

/-- Stage 3 of `hybrid_search` (service.py lines 190-219): rebuild each
semantic result field by field, with the fused score in place of the raw
semantic score. -/
def fuse_results (semantic_weight keyword_boost_factor : ℚ)
    (keyword_scores : List (String × ℚ)) (semantic_results : List SearchResult) :
    List SearchResult :=
  semantic_results.map (fun result =>
    let keyword_score := (keyword_scores.lookup result.id).getD 0
    SearchResult.mk
      result.id
      result.filename
      result.text
      (fuse_score semantic_weight keyword_boost_factor keyword_score result.score)
      result.embedding
      result.location
      result.token_count
      result.start_index
      result.end_index)

/-- Stable insertion into a list sorted by non-increasing score: the new
element goes after every strictly greater one and before equals it meets,
which reproduces the stability of Python's `list.sort(reverse=True)`. -/
def insert_desc (r : SearchResult) : List SearchResult → List SearchResult
  | [] => [r]
  | x :: xs => if r.score < x.score then x :: insert_desc r xs else r :: x :: xs

/-- `final_results.sort(key=..., reverse=True)` (service.py line 222):
stable sort by non-increasing score. -/
def sort_by_score_desc (l : List SearchResult) : List SearchResult :=
  l.foldr insert_desc []

/-- The diversity penalty of `_rerank_with_mmr` (service.py lines 371-379):
greatest similarity to an already selected result, or 0 when nothing is
selected, the candidate has no embedding, or no selected result has one.
`sim` abstracts `self._cosine_similarity`. -/
def diversity_penalty (sim : List ℚ → List ℚ → ℚ)
    (selected : List SearchResult) (candidate : SearchResult) : ℚ :=
  if selected ≠ [] ∧ candidate.embedding ≠ [] then
    let similarities :=
      (selected.filter (fun chosen => !chosen.embedding.isEmpty)).map
        (fun chosen => sim candidate.embedding chosen.embedding)
    match similarities with
    | [] => 0
    | x :: xs => xs.foldl max x
  else 0

/-- The MMR objective (service.py line 381). -/
def mmr_score (sim : List ℚ → List ℚ → ℚ) (lambda_param : ℚ)
    (selected : List SearchResult) (candidate : SearchResult) : ℚ :=
  lambda_param * candidate.score - (1 - lambda_param) * diversity_penalty sim selected candidate

/-- One pass of the inner loop of `_rerank_with_mmr` (service.py lines
367-391): find the first candidate with the strictly greatest objective
value (later candidates replace the champion only on a strict improvement,
as in the source's `>` comparison) and remove it from the pool, keeping the
others in order. -/
def extractBest (f : SearchResult → ℚ) :
    SearchResult → List SearchResult → SearchResult × List SearchResult
  | c, [] => (c, [])
  | c, d :: ds =>
    if f c < f d then
      ((extractBest f d ds).1, c :: (extractBest f d ds).2)
    else
      ((extractBest f c ds).1, d :: (extractBest f c ds).2)

/-- The greedy selection loop of `_rerank_with_mmr`: the fuel is the number
of slots still to fill (`limit - len(selected)`); returns the selected list
and the remaining candidate pool. -/
def mmrGo (sim : List ℚ → List ℚ → ℚ) (lambda_param : ℚ) :
    Nat → List SearchResult → List SearchResult → List SearchResult × List SearchResult
  | 0, candidates, selected => (selected, candidates)
  | _ + 1, [], selected => (selected, [])
  | n + 1, c :: cs, selected =>
    mmrGo sim lambda_param n
      (extractBest (mmr_score sim lambda_param selected) c cs).2
      (selected ++ [(extractBest (mmr_score sim lambda_param selected) c cs).1])

/-- `SemanticSearchService._rerank_with_mmr` (service.py lines 348-397):
default the trade-off parameter from configuration, pass lists of at most
one element through truncated, otherwise run the greedy loop, pad from the
leftover pool if the loop stopped short, and truncate to `limit`. -/
def rerank_with_mmr (sim : List ℚ → List ℚ → ℚ) (cfg : SearchConfig)
    (results : List SearchResult) (limit : Nat) (lambda? : Option ℚ) :
    List SearchResult :=
  let lambda_param := match lambda? with | none => cfg.mmr_lambda | some l => l
  if results.length ≤ 1 then results.take limit
  else
    let p := mmrGo sim lambda_param limit results []
    let selected := p.1
    let candidates := p.2
    let selected :=
      if selected.length < limit then selected ++ candidates.take (limit - selected.length)
      else selected
    selected.take limit

/-- `SemanticSearchService.hybrid_search` (service.py lines 144-223):
resolve defaulted arguments (`or` for limit and threshold, an explicit
`is not None` test for the semantic weight), over-fetch `2×limit` semantic
candidates, short-circuit on an empty candidate list, score keywords, fuse,
stable-sort by fused score, and MMR-rerank with the configured lambda. -/
def hybrid_search (cfg : SearchConfig) (sim : List ℚ → List ℚ → ℚ)
    (provider : List Char → List ℚ) (store : List ℚ → ℚ → Nat → List QdrantPoint)
    (query : String) (semantic_weight? : Option ℚ) (limit? : Option Nat)
    (min_similarity_score : Option ℚ) (keyword_boost_factor : ℚ)
    (st : EmbedState) : List SearchResult × EmbedState :=
  let limit := pyOrNat limit? cfg.default_limit
  let min_score := pyOrQ min_similarity_score cfg.default_similarity_threshold
  let semantic_weight :=
    match semantic_weight? with
    | none => cfg.hybrid_semantic_weight
    | some w => w
  let s := semantic_search cfg provider store query (some (limit * 2)) (some min_score) st
  let semantic_results := s.1
  if semantic_results = [] then ([], s.2)
  else
    let query_terms := extract_search_terms query
    let keyword_scores :=
      calculate_keyword_scores semantic_results query_terms
        (some (String.mk (pyLower query.data)))
    let final_results := fuse_results semantic_weight keyword_boost_factor keyword_scores semantic_results
    let final_results := sort_by_score_desc final_results
    (rerank_with_mmr sim cfg final_results limit none, s.2)

/-- A value of the caller-supplied metadata filter: either a scalar matched
by equality, or a nested dictionary (which the source skips — the
range-filter branch is `pass`). -/
inductive MetaValue where
  | scalar (v : String)
  | dictVal (entries : List (String × String))
deriving DecidableEq

/-- An equality condition handed to the store (`FieldCondition` with
`MatchValue`). -/
structure FieldCondition where
  key : String
  match_value : String
deriving DecidableEq

/-- `SemanticSearchService.search_with_metadata_filter` (service.py lines
266-322): build conjunctive equality conditions from the scalar entries of
the metadata filter (dictionary values are skipped), pass `None` for an
empty condition list, query the store with the effective limit and
threshold, and return the converted points as-is — no client-side
re-filtering and no reranking. -/
def search_with_metadata_filter (cfg : SearchConfig)
    (provider : List Char → List ℚ)
    (store : List ℚ → Option (List FieldCondition) → ℚ → Nat → List QdrantPoint)
    (query : String) (metadata_filter : List (String × MetaValue))
    (limit? : Option Nat) (min_similarity_score : Option ℚ)
    (st : EmbedState) : List SearchResult × EmbedState :=
  let limit := pyOrNat limit? cfg.default_limit
  let min_score := pyOrQ min_similarity_score cfg.default_similarity_threshold
  let e := embed_query cfg provider query st
  let filter_conditions :=
    metadata_filter.foldr
      (fun kv acc =>
        match kv.2 with
        | MetaValue.scalar v => FieldCondition.mk kv.1 v :: acc
        | MetaValue.dictVal _ => acc)
      ([] : List FieldCondition)
  let search_filter :=
    if filter_conditions = [] then none else some filter_conditions
  let search_results := store e.1 search_filter min_score limit
  (convert_to_search_results search_results, e.2)

/-- The collection description returned by the store client; every field is
optional because the source reads each one with `getattr(..., default)`. -/
structure CollectionInfo where
  vectors_count : Option Nat
  indexed_vectors_count : Option Nat
  points_count : Option Nat
  status : Option String
  optimizer_status : Option String
  vector_size : Option Nat
deriving DecidableEq

/-- A value of the heterogeneous dictionary `get_collection_info` returns. -/
inductive InfoValue where
  | s (v : String)
  | n (v : Nat)
deriving DecidableEq

/-- `SemanticSearchService.get_collection_info` (service.py lines 498-513).
The store interaction is modelled as an `Except`: `Except.error` is the
exception path, which the source catches and converts into an
`{error: message}` payload instead of re-raising. -/
def get_collection_info (cfg : SearchConfig)
    (reply : Except String CollectionInfo) : List (String × InfoValue) :=
  match reply with
  | Except.ok collection_info =>
    [("name", InfoValue.s cfg.qdrant_collection),
     ("vectors_count", InfoValue.n (collection_info.vectors_count.getD 0)),
     ("indexed_vectors_count", InfoValue.n (collection_info.indexed_vectors_count.getD 0)),
     ("points_count", InfoValue.n (collection_info.points_count.getD 0)),
     ("status", InfoValue.s (collection_info.status.getD "unknown")),
     ("optimizer_status", InfoValue.s (collection_info.optimizer_status.getD "unknown")),
     ("vector_size", InfoValue.n (collection_info.vector_size.getD 0))]
  | Except.error e => [("error", InfoValue.s e)]

/-! Concrete sample data used by witnesses and counterexamples. -/

def srA : SearchResult := SearchResult.mk "a" "" "" 0 [] 0 none none none

def srB : SearchResult := SearchResult.mk "b" "" "" 1 [] 0 none none none

/-- A cache already at its 100-entry capacity, none of whose keys is "hi". -/
def fullCache : List (List Char × List ℚ) := List.replicate 100 (['a'], [])

/-! Helper lemmas about the embedding cache. -/

theorem embed_query_hit (cfg : SearchConfig) (provider : List Char → List ℚ)
    (query : String) (st : EmbedState) (v : List ℚ)
    (hq : pyStrip query ≠ []) (h : st.cache.lookup (pyStrip query) = some v) :
    embed_query cfg provider query st = (v, st) := by
  simp [embed_query, hq, h]

theorem embed_query_miss (cfg : SearchConfig) (provider : List Char → List ℚ)
    (query : String) (st : EmbedState)
    (hq : pyStrip query ≠ []) (h : st.cache.lookup (pyStrip query) = none)
    (hlen : st.cache.length < 100) :
    embed_query cfg provider query st =
      (provider (pyStrip query),
       ⟨st.cache ++ [(pyStrip query, provider (pyStrip query))], st.calls + 1⟩) := by
  simp [embed_query, hq, h, hlen]

theorem embed_query_miss_full (cfg : SearchConfig) (provider : List Char → List ℚ)
    (query : String) (st : EmbedState)
    (hq : pyStrip query ≠ []) (h : st.cache.lookup (pyStrip query) = none)
    (hlen : ¬ st.cache.length < 100) :
    embed_query cfg provider query st =
      (provider (pyStrip query), ⟨st.cache, st.calls + 1⟩) := by
  simp [embed_query, hq, h, hlen]

theorem lookup_append_singleton {k : List Char} {l : List (List Char × List ℚ)}
    {v : List ℚ} (h : l.lookup k = none) :
    (l ++ [(k, v)]).lookup k = some v := by
  rw [List.lookup_append, h]
  simp

/-- C1: for a query that is non-empty after trimming, two consecutive
`_embed_query` calls return the same vector whatever the cache holds — even
at full capacity, where both calls go to the (deterministic) provider — and,
provided the cache is below its 100-entry capacity before the first call or
already holds the query, at most one provider call is made in total.  (The
at-most-one-call bound fails on a full cache; see the counterexample.) -/
theorem embed_query_cache_idempotent (cfg : SearchConfig)
    (provider : List Char → List ℚ) (query : String) (st : EmbedState)
    (hq : pyStrip query ≠ []) :
    (embed_query_twice cfg provider query st).1.1 =
      (embed_query_twice cfg provider query st).2.1 ∧
    (st.cache.length < 100 ∨ (st.cache.lookup (pyStrip query)).isSome →
      (embed_query_twice cfg provider query st).2.2.calls ≤ st.calls + 1) := by
  cases h : st.cache.lookup (pyStrip query) with
  | some v =>
    have h1 := embed_query_hit cfg provider query st v hq h
    unfold embed_query_twice
    rw [h1]
    rw [h1]
    exact ⟨rfl, fun _ => Nat.le_succ _⟩
  | none =>
    by_cases hlen : st.cache.length < 100
    · have h1 := embed_query_miss cfg provider query st hq h hlen
      have h2 : embed_query cfg provider query
          ⟨st.cache ++ [(pyStrip query, provider (pyStrip query))], st.calls + 1⟩ =
          (provider (pyStrip query),
           ⟨st.cache ++ [(pyStrip query, provider (pyStrip query))], st.calls + 1⟩) := by
        exact embed_query_hit cfg provider query _ _ hq (lookup_append_singleton h)
      unfold embed_query_twice
      rw [h1]
      rw [h2]
      exact ⟨rfl, fun _ => le_refl _⟩
    · have h1 := embed_query_miss_full cfg provider query st hq h hlen
      have h2 : embed_query cfg provider query ⟨st.cache, st.calls + 1⟩ =
          (provider (pyStrip query), ⟨st.cache, st.calls + 1 + 1⟩) :=
        embed_query_miss_full cfg provider query ⟨st.cache, st.calls + 1⟩ hq h hlen
      unfold embed_query_twice
      rw [h1]
      rw [h2]
      refine ⟨rfl, fun hcap => ?_⟩
      rcases hcap with hl | hs
      · exact absurd hl hlen
      · simp at hs

theorem embed_query_cache_idempotent_witness :
    ((embed_query_twice SearchConfig.default (fun _ => [1]) "hi" ⟨[], 0⟩).1.1 =
      (embed_query_twice SearchConfig.default (fun _ => [1]) "hi" ⟨[], 0⟩).2.1) ∧
    (embed_query_twice SearchConfig.default (fun _ => [1]) "hi" ⟨[], 0⟩).2.2.calls ≤ 0 + 1 :=
  ⟨(embed_query_cache_idempotent SearchConfig.default (fun _ => [1]) "hi" ⟨[], 0⟩
      (by decide)).1,
   (embed_query_cache_idempotent SearchConfig.default (fun _ => [1]) "hi" ⟨[], 0⟩
      (by decide)).2 (Or.inl (by decide))⟩

/-- C1 counterexample: with the cache at capacity and the query absent,
neither `_embed_query` call can insert into the cache, so the second call
misses again and the two calls issue two provider calls in total,
contradicting "at most one provider call regardless of the cache's
occupancy". -/
theorem embed_query_full_cache_two_calls :
    pyStrip "hi" ≠ [] ∧
    ¬ ((embed_query_twice SearchConfig.default (fun _ => [1]) "hi"
        ⟨fullCache, 0⟩).2.2.calls ≤ 0 + 1) := by
  constructor
  · decide
  · decide

/-- C6: a query that is empty after trimming yields the zero vector of the
configured embedding dimensionality, leaves the cache untouched, and makes
no provider call (the call counter of the state is unchanged). -/
theorem embed_query_empty_zero_vector (cfg : SearchConfig)
    (provider : List Char → List ℚ) (query : String) (st : EmbedState)
    (h : pyStrip query = []) :
    embed_query cfg provider query st = (List.replicate cfg.embedding_dimension 0, st) := by
  simp [embed_query, h]

theorem embed_query_empty_zero_vector_witness :
    embed_query SearchConfig.default (fun _ => [1]) "   " ⟨[], 0⟩ =
      (List.replicate SearchConfig.default.embedding_dimension 0, ⟨[], 0⟩) :=
  embed_query_empty_zero_vector SearchConfig.default (fun _ => [1]) "   " ⟨[], 0⟩ (by decide)

/-- C2: with both input scores in `[0,1]`, a semantic weight in `[0,1]` and
a boost factor of at least 1, the fused score of `hybrid_search` stays in
`[0,1]`. -/
theorem fuse_score_bounds (semantic_weight keyword_boost_factor keyword_score semantic_score : ℚ)
    (hs0 : 0 ≤ semantic_score) (hs1 : semantic_score ≤ 1)
    (hk0 : 0 ≤ keyword_score) (hk1 : keyword_score ≤ 1)
    (hw0 : 0 ≤ semantic_weight) (hw1 : semantic_weight ≤ 1)
    (hb : 1 ≤ keyword_boost_factor) :
    0 ≤ fuse_score semantic_weight keyword_boost_factor keyword_score semantic_score ∧
    fuse_score semantic_weight keyword_boost_factor keyword_score semantic_score ≤ 1 := by
  unfold fuse_score
  have hk'0 : 0 ≤ (if keyword_score > 8/10 then keyword_score * keyword_boost_factor
      else keyword_score) := by
    split
    · nlinarith
    · exact hk0
  have h1 : 0 ≤ min (if keyword_score > 8/10 then keyword_score * keyword_boost_factor
      else keyword_score) 1 := le_min hk'0 zero_le_one
  have h2 : min (if keyword_score > 8/10 then keyword_score * keyword_boost_factor
      else keyword_score) 1 ≤ 1 := min_le_right _ _
  constructor <;> nlinarith

theorem fuse_score_bounds_witness :
    0 ≤ fuse_score (1/2) (3/2) (9/10) (1/2) ∧
    fuse_score (1/2) (3/2) (9/10) (1/2) ≤ 1 :=
  fuse_score_bounds (1/2) (3/2) (9/10) (1/2) (by norm_num) (by norm_num) (by norm_num)
    (by norm_num) (by norm_num) (by norm_num) (by norm_num)

/-- C8: `get_collection_info` is total over every store outcome: a store
error is converted into the structured `error` payload rather than
propagated, and a successful reply yields the seven-entry info dictionary. -/
theorem get_collection_info_error_payload (cfg : SearchConfig) (e : String)
    (collection_info : CollectionInfo) :
    get_collection_info cfg (Except.error e) = [("error", InfoValue.s e)] ∧
    get_collection_info cfg (Except.ok collection_info) ≠ [] ∧
    (get_collection_info cfg (Except.ok collection_info)).length = 7 := by
  refine ⟨rfl, ?_, rfl⟩
  simp [get_collection_info]

/-- C9: score fusion preserves every field of each semantic result except
`score`, which is replaced by the fused score computed from the result's
own semantic score and its keyword score (0 when absent from the map). -/
theorem fuse_results_frame (semantic_weight keyword_boost_factor : ℚ)
    (keyword_scores : List (String × ℚ)) (results : List SearchResult) :
    fuse_results semantic_weight keyword_boost_factor keyword_scores results =
      results.map (fun r =>
        { r with
          score := fuse_score semantic_weight keyword_boost_factor
              ((keyword_scores.lookup r.id).getD 0) r.score }) := rfl

/-- C10: in all three vector-store retrieval operations, an explicitly
passed limit of 0 or similarity threshold of 0 is indistinguishable from an
absent argument — both are replaced by the configured defaults, because the
source resolves them with Python's falsy `or`. -/
theorem zero_arguments_use_defaults (cfg : SearchConfig)
    (sim : List ℚ → List ℚ → ℚ) (provider : List Char → List ℚ)
    (store : List ℚ → ℚ → Nat → List QdrantPoint)
    (storeF : List ℚ → Option (List FieldCondition) → ℚ → Nat → List QdrantPoint)
    (query : String) (metadata_filter : List (String × MetaValue))
    (semantic_weight? : Option ℚ) (keyword_boost_factor : ℚ) (st : EmbedState)
    (limit? : Option Nat) (min? : Option ℚ) :
    semantic_search cfg provider store query (some 0) min? st =
      semantic_search cfg provider store query none min? st ∧
    semantic_search cfg provider store query limit? (some 0) st =
      semantic_search cfg provider store query limit? none st ∧
    hybrid_search cfg sim provider store query semantic_weight? (some 0) min?
        keyword_boost_factor st =
      hybrid_search cfg sim provider store query semantic_weight? none min?
        keyword_boost_factor st ∧
    hybrid_search cfg sim provider store query semantic_weight? limit? (some 0)
        keyword_boost_factor st =
      hybrid_search cfg sim provider store query semantic_weight? limit? none
        keyword_boost_factor st ∧
    search_with_metadata_filter cfg provider storeF query metadata_filter (some 0) min? st =
      search_with_metadata_filter cfg provider storeF query metadata_filter none min? st ∧
    search_with_metadata_filter cfg provider storeF query metadata_filter limit? (some 0) st =
      search_with_metadata_filter cfg provider storeF query metadata_filter limit? none st :=
  ⟨rfl, rfl, rfl, rfl, rfl, rfl⟩

/-! Lemmas about the greedy MMR selection loop. -/

theorem extractBest_cons_perm (f : SearchResult → ℚ) (c : SearchResult)
    (l : List SearchResult) :
    List.Perm ((extractBest f c l).1 :: (extractBest f c l).2) (c :: l) := by
  induction l generalizing c with
  | nil => simp [extractBest]
  | cons d ds ih =>
    unfold extractBest
    by_cases h : f c < f d
    · rw [if_pos h]
      exact (List.Perm.swap c (extractBest f d ds).1 (extractBest f d ds).2).trans
        ((ih d).cons c)
    · rw [if_neg h]
      exact ((List.Perm.swap d (extractBest f c ds).1 (extractBest f c ds).2).trans
        ((ih c).cons d)).trans (List.Perm.swap c d ds)

theorem extractBest_snd_length (f : SearchResult → ℚ) (c : SearchResult)
    (l : List SearchResult) :
    (extractBest f c l).2.length = l.length := by
  have h := (extractBest_cons_perm f c l).length_eq
  simpa using h

theorem mmrGo_append_perm (sim : List ℚ → List ℚ → ℚ) (lam : ℚ) :
    ∀ (n : Nat) (cands sel : List SearchResult),
      List.Perm ((mmrGo sim lam n cands sel).1 ++ (mmrGo sim lam n cands sel).2)
        (sel ++ cands) := by
  intro n
  induction n with
  | zero => intro cands sel; simp [mmrGo]
  | succ n ih =>
    intro cands sel
    cases cands with
    | nil => simp [mmrGo]
    | cons c cs =>
      have hperm := extractBest_cons_perm (mmr_score sim lam sel) c cs
      have hstep :
          List.Perm
            ((sel ++ [(extractBest (mmr_score sim lam sel) c cs).1]) ++
              (extractBest (mmr_score sim lam sel) c cs).2)
            (sel ++ (c :: cs)) := by
        rw [List.append_assoc, List.singleton_append]
        exact List.Perm.append_left sel hperm
      unfold mmrGo
      exact (ih _ _).trans hstep

theorem mmrGo_fst_length (sim : List ℚ → List ℚ → ℚ) (lam : ℚ) :
    ∀ (n : Nat) (cands sel : List SearchResult),
      (mmrGo sim lam n cands sel).1.length = sel.length + min n cands.length := by
  intro n
  induction n with
  | zero => intro cands sel; simp [mmrGo]
  | succ n ih =>
    intro cands sel
    cases cands with
    | nil => simp [mmrGo]
    | cons c cs =>
      unfold mmrGo
      rw [ih]
      rw [extractBest_snd_length]
      simp only [List.length_append, List.length_cons, List.length_nil]
      omega

/-- C3: for every candidate list, limit and `lambda in [0,1]` — indeed for
every similarity measure — `_rerank_with_mmr` returns exactly
`min(limit, len(candidates))` results, and the output is a sub-permutation
of the input (every output item consumes a distinct input position). -/
theorem rerank_with_mmr_cardinality (sim : List ℚ → List ℚ → ℚ)
    (cfg : SearchConfig) (results : List SearchResult) (limit : Nat) (lam : ℚ)
    (h0 : 0 ≤ lam) (h1 : lam ≤ 1) :
    (rerank_with_mmr sim cfg results limit (some lam)).length = min limit results.length ∧
    List.Subperm (rerank_with_mmr sim cfg results limit (some lam)) results := by
  unfold rerank_with_mmr
  dsimp only
  by_cases hlen : results.length ≤ 1
  · rw [if_pos hlen]
    exact ⟨List.length_take _ _, (List.take_sublist _ _).subperm⟩
  · rw [if_neg hlen]
    have hfst : (mmrGo sim lam limit results []).1.length = min limit results.length := by
      simpa using mmrGo_fst_length sim lam limit results []
    have hperm : List.Perm
        ((mmrGo sim lam limit results []).1 ++ (mmrGo sim lam limit results []).2)
        results := by
      simpa using mmrGo_append_perm sim lam limit results []
    have hsub : List.Subperm (mmrGo sim lam limit results []).1 results :=
      ((List.sublist_append_left _ _).subperm).trans hperm.subperm
    by_cases hsel : (mmrGo sim lam limit results []).1.length < limit
    · rw [if_pos hsel]
      have hres : results.length < limit := by
        rw [hfst] at hsel
        omega
      have hp2 : (mmrGo sim lam limit results []).2 = [] := by
        have hl2 := hperm.length_eq
        rw [List.length_append] at hl2
        have : (mmrGo sim lam limit results []).2.length = 0 := by omega
        exact List.length_eq_zero.mp this
      rw [hp2]
      simp only [List.take_nil, List.append_nil]
      constructor
      · rw [List.length_take, hfst]
        omega
      · exact (List.take_sublist _ _).subperm.trans hsub
    · rw [if_neg hsel]
      constructor
      · rw [List.length_take, hfst]
        omega
      · exact (List.take_sublist _ _).subperm.trans hsub

theorem rerank_with_mmr_cardinality_witness :
    (rerank_with_mmr (fun _ _ => 0) SearchConfig.default [srA, srB] 1 (some (1/2))).length =
      min 1 [srA, srB].length ∧
    List.Subperm (rerank_with_mmr (fun _ _ => 0) SearchConfig.default [srA, srB] 1 (some (1/2)))
      [srA, srB] :=
  rerank_with_mmr_cardinality (fun _ _ => 0) SearchConfig.default [srA, srB] 1 (1/2)
    (by norm_num) (by norm_num)

theorem mmr_score_lambda_one (sim : List ℚ → List ℚ → ℚ)
    (sel : List SearchResult) (c : SearchResult) :
    mmr_score sim 1 sel c = c.score := by
  unfold mmr_score
  ring

theorem extractBest_of_max (f : SearchResult → ℚ) (c : SearchResult)
    (l : List SearchResult) (h : ∀ d ∈ l, ¬ f c < f d) :
    extractBest f c l = (c, l) := by
  induction l with
  | nil => rfl
  | cons d ds ih =>
    unfold extractBest
    rw [if_neg (h d (List.mem_cons_self d ds))]
    rw [ih (fun e he => h e (List.mem_cons_of_mem d he))]

theorem mmrGo_lambda_one (sim : List ℚ → List ℚ → ℚ) :
    ∀ (n : Nat) (cands sel : List SearchResult),
      List.Pairwise (fun a b => b.score ≤ a.score) cands →
      mmrGo sim 1 n cands sel = (sel ++ cands.take n, cands.drop n) := by
  intro n
  induction n with
  | zero => intro cands sel _; simp [mmrGo]
  | succ n ih =>
    intro cands sel hsort
    cases cands with
    | nil => simp [mmrGo]
    | cons c cs =>
      rw [List.pairwise_cons] at hsort
      have hbest : extractBest (mmr_score sim 1 sel) c cs = (c, cs) := by
        apply extractBest_of_max
        intro d hd
        rw [mmr_score_lambda_one, mmr_score_lambda_one]
        exact not_lt.mpr (hsort.1 d hd)
      unfold mmrGo
      rw [hbest]
      rw [ih cs (sel ++ [c]) hsort.2]
      simp [List.append_assoc]

/-- C4 (amended): with `lambda = 1` the diversity penalty has no effect, so
on a candidate list sorted by non-increasing score — the order
`hybrid_search` establishes before reranking — `_rerank_with_mmr` returns
the input truncated to the first `limit` elements.  (On unsorted input the
loop re-sorts by score instead; see the counterexample.) -/
theorem rerank_with_mmr_lambda_one (sim : List ℚ → List ℚ → ℚ)
    (cfg : SearchConfig) (results : List SearchResult) (limit : Nat)
    (hsort : List.Pairwise (fun a b => b.score ≤ a.score) results) :
    rerank_with_mmr sim cfg results limit (some 1) = results.take limit := by
  unfold rerank_with_mmr
  dsimp only
  by_cases hlen : results.length ≤ 1
  · rw [if_pos hlen]
  · rw [if_neg hlen]
    rw [mmrGo_lambda_one sim limit results [] hsort]
    simp only [List.nil_append]
    by_cases hsel : (results.take limit).length < limit
    · rw [if_pos hsel]
      have hres : results.length < limit := by
        rw [List.length_take] at hsel
        omega
      have ht : results.take limit = results := List.take_of_length_le (le_of_lt hres)
      have hd : results.drop limit = [] := List.drop_eq_nil_of_le (le_of_lt hres)
      rw [ht, hd]
      simp [List.take_of_length_le (le_of_lt hres)]
    · rw [if_neg hsel]
      rw [List.take_take, Nat.min_self]

theorem rerank_with_mmr_lambda_one_witness :
    rerank_with_mmr (fun _ _ => 0) SearchConfig.default [srB, srA] 1 (some 1) =
      [srB, srA].take 1 :=
  rerank_with_mmr_lambda_one (fun _ _ => 0) SearchConfig.default [srB, srA] 1
    (by simp [List.pairwise_cons]; norm_num [srA, srB])

/-- C4 counterexample: on an *unsorted* candidate list, `lambda = 1` makes
the greedy loop pick the highest-scored candidate first, so the output is
not the input order truncated: `[srA, srB]` (scores 0 and 1) comes back as
`[srB, srA]`. -/
theorem rerank_with_mmr_lambda_one_counterexample :
    rerank_with_mmr (fun _ _ => 0) SearchConfig.default [srA, srB] 2 (some 1) ≠
      [srA, srB].take 2 := by
  have h : rerank_with_mmr (fun _ _ => 0) SearchConfig.default [srA, srB] 2 (some 1) =
      [srB, srA] := by
    norm_num [rerank_with_mmr, mmrGo, extractBest, mmr_score, diversity_penalty, srA, srB]
  rw [h]
  norm_num [srA, srB, List.take]

/-! Lemmas about the keyword scorer. -/

theorem foldl_snd_nonneg {α : Type} (g : (Nat × ℚ) → α → (Nat × ℚ))
    (hg : ∀ acc a, acc.2 ≤ (g acc a).2) (l : List α) :
    ∀ acc : Nat × ℚ, 0 ≤ acc.2 → 0 ≤ (List.foldl g acc l).2 := by
  induction l with
  | nil => intro acc h; simpa using h
  | cons a as ih =>
    intro acc h
    exact ih (g acc a) (le_trans h (hg acc a))

theorem term_match_fold_snd_nonneg (text_lower : List Char)
    (query_terms : List (List Char)) :
    0 ≤ (term_match_fold text_lower query_terms).2 := by
  apply foldl_snd_nonneg _ _ query_terms (0, 0) le_rfl
  intro acc term
  dsimp only
  split
  · have hm : (0:ℚ) ≤ min ((pyCount term text_lower : ℚ) / 10) (3/10) :=
      le_min (by positivity) (by norm_num)
    dsimp only
    linarith
  · exact le_rfl

theorem keyword_score_of_bounds (query_terms : List (List Char))
    (normalized_query : List Char) (result : SearchResult) :
    0 ≤ keyword_score_of query_terms normalized_query result ∧
    keyword_score_of query_terms normalized_query result ≤ 1 := by
  unfold keyword_score_of
  dsimp only
  refine ⟨le_min ?_ zero_le_one, min_le_right _ _⟩
  have hfold := term_match_fold_snd_nonneg (pyLower result.text.data) query_terms
  have hbase : (0:ℚ) ≤
      ((term_match_fold (pyLower result.text.data) query_terms).1 : ℚ) /
        (query_terms.length : ℚ) := by positivity
  have hmin : (0:ℚ) ≤
      min (((query_terms.filter
          (fun term => containsSub term (pyLower result.filename.data))).length : ℚ) /
          (query_terms.length : ℚ)) (2/10) :=
    le_min (by positivity) (by norm_num)
  split_ifs <;> linarith

theorem mem_dictInsert {k : String} {v : ℚ} {l : List (String × ℚ)}
    {p : String × ℚ} (hp : p ∈ dictInsert k v l) :
    p = (k, v) ∨ p ∈ l := by
  induction l with
  | nil => simpa [dictInsert] using hp
  | cons q rest ih =>
    cases q with
    | mk k' v' =>
      unfold dictInsert at hp
      by_cases hk : k' = k
      · rw [if_pos hk] at hp
        rcases List.mem_cons.mp hp with h | h
        · exact Or.inl h
        · exact Or.inr (List.mem_cons_of_mem _ h)
      · rw [if_neg hk] at hp
        rcases List.mem_cons.mp hp with h | h
        · exact Or.inr (h ▸ List.mem_cons_self _ _)
        · rcases ih h with h' | h'
          · exact Or.inl h'
          · exact Or.inr (List.mem_cons_of_mem _ h')

theorem foldl_dictInsert_values (f : SearchResult → ℚ)
    (hf : ∀ r, 0 ≤ f r ∧ f r ≤ 1) :
    ∀ (results : List SearchResult) (acc : List (String × ℚ)),
      (∀ p ∈ acc, 0 ≤ p.2 ∧ p.2 ≤ 1) →
      ∀ p ∈ results.foldl (fun scores result => dictInsert result.id (f result) scores) acc,
        0 ≤ p.2 ∧ p.2 ≤ 1 := by
  intro results
  induction results with
  | nil => intro acc hacc p hp; exact hacc p hp
  | cons r rs ih =>
    intro acc hacc p hp
    refine ih _ ?_ p hp
    intro q hq
    rcases mem_dictInsert hq with h | h
    · rw [h]
      exact hf r
    · exact hacc q h

/-- C5: every value of the keyword-score mapping lies in `[0,1]`, and an
empty query-term list produces an empty mapping. -/
theorem calculate_keyword_scores_bounds (results : List SearchResult)
    (query_terms : List (List Char)) (raw_query : Option String) :
    (∀ p ∈ calculate_keyword_scores results query_terms raw_query,
      0 ≤ p.2 ∧ p.2 ≤ 1) ∧
    (query_terms = [] → calculate_keyword_scores results query_terms raw_query = []) := by
  constructor
  · intro p hp
    unfold calculate_keyword_scores at hp
    by_cases hqt : query_terms = []
    · rw [if_pos hqt] at hp
      simp at hp
    · rw [if_neg hqt] at hp
      dsimp only at hp
      exact foldl_dictInsert_values _
        (fun r => keyword_score_of_bounds query_terms
          (pyLower (pyStrip (raw_query.getD ""))) r)
        results [] (by simp) p hp
  · intro h
    simp [calculate_keyword_scores, h]

def srX : SearchResult := SearchResult.mk "d" "" "xyz" 0 [] 0 none none none

theorem calculate_keyword_scores_srX_eval :
    calculate_keyword_scores [srX] [['f', 'o', 'o']] (some "") = [("d", 0)] := by
  have h1 : containsSub ['f', 'o', 'o'] (pyLower srX.text.data) = false := by decide
  have h2 : pyLower (pyStrip "") = ([] : List Char) := by decide
  have h3 : pyLower srX.filename.data = ([] : List Char) := by decide
  have h4 : srX.id = "d" := rfl
  unfold calculate_keyword_scores keyword_score_of term_match_fold
  norm_num [h1, h2, h3, h4, dictInsert]

theorem calculate_keyword_scores_bounds_witness :
    0 ≤ (0 : ℚ) ∧ (0 : ℚ) ≤ 1 :=
  (calculate_keyword_scores_bounds [srX] [['f', 'o', 'o']] (some "")).1 ("d", 0)
    (calculate_keyword_scores_srX_eval ▸ List.mem_singleton.mpr rfl)

/-! C7: client-side threshold re-application. -/

theorem pyOrQ_some_ne_zero {m : ℚ} (h : ¬ m = 0) (d : ℚ) : pyOrQ (some m) d = m := by
  simp [pyOrQ, h]

/-- C7 (amended): `semantic_search` re-applies a stricter-than-default
requested threshold client-side — every returned result scores at least the
requested (nonzero) threshold even if the store returned lower-scoring
points — and truncates the output to the effective limit.
(`search_with_metadata_filter` performs no such re-application; see the
counterexample.) -/
theorem semantic_search_strict_threshold (cfg : SearchConfig)
    (provider : List Char → List ℚ) (store : List ℚ → ℚ → Nat → List QdrantPoint)
    (query : String) (limit? : Option Nat) (st : EmbedState) (m : ℚ)
    (hm : cfg.default_similarity_threshold < m) (hm0 : ¬ m = 0) :
    (∀ r ∈ (semantic_search cfg provider store query limit? (some m) st).1,
      m ≤ r.score) ∧
    (semantic_search cfg provider store query limit? (some m) st).1.length ≤
      pyOrNat limit? cfg.default_limit := by
  unfold semantic_search
  dsimp only
  rw [pyOrQ_some_ne_zero hm0]
  constructor
  · intro r hr
    rw [if_pos hm] at hr
    have hr' := List.take_subset _ _ hr
    have hdec := (List.mem_filter.mp hr').2
    exact of_decide_eq_true hdec
  · split
    · exact List.length_take_le _ _
    · exact List.length_take_le _ _

def ptHigh : QdrantPoint :=
  QdrantPoint.mk (some "h") (some "high.md") (some "hello") (some 0) none none none
    (9/10) none

def ptLow : QdrantPoint :=
  QdrantPoint.mk (some "l") (some "low.md") (some "later") (some 0) none none none
    (1/10) none

def srHigh : SearchResult := SearchResult.mk "h" "high.md" "hello" (9/10) [] 0 none none none

def srLow : SearchResult := SearchResult.mk "l" "low.md" "later" (1/10) [] 0 none none none

theorem semantic_search_strict_threshold_witness :
    (1/2 : ℚ) ≤ srHigh.score ∧
    (semantic_search SearchConfig.default (fun _ => [1])
        (fun _ _ _ => [ptHigh, ptLow]) "q" (some 5) (some (1/2)) ⟨[], 0⟩).1.length ≤
      pyOrNat (some 5) SearchConfig.default.default_limit := by
  constructor
  · exact (semantic_search_strict_threshold SearchConfig.default (fun _ => [1])
      (fun _ _ _ => [ptHigh, ptLow]) "q" (some 5) ⟨[], 0⟩ (1/2)
      (by norm_num [SearchConfig.default]) (by norm_num)).1 srHigh
      (by norm_num [semantic_search, pyOrNat, pyOrQ, convert_to_search_results,
        SearchConfig.default, ptHigh, ptLow, srHigh, srLow, List.filter])
  · exact (semantic_search_strict_threshold SearchConfig.default (fun _ => [1])
      (fun _ _ _ => [ptHigh, ptLow]) "q" (some 5) ⟨[], 0⟩ (1/2)
      (by norm_num [SearchConfig.default]) (by norm_num)).2

/-- C7 counterexample: `search_with_metadata_filter` passes the stricter
threshold only to the store and does not re-apply it client-side, so a
store point scoring below the requested threshold is returned to the caller
as-is. -/
theorem metadata_filter_threshold_not_reapplied :
    SearchConfig.default.default_similarity_threshold < 1/2 ∧
    (search_with_metadata_filter SearchConfig.default (fun _ => [1])
        (fun _ _ _ _ => [ptLow]) "q" [("filename", MetaValue.scalar "a.md")]
        (some 5) (some (1/2)) ⟨[], 0⟩).1 = [srLow] ∧
    srLow.score < 1/2 := by
  refine ⟨by norm_num [SearchConfig.default], ?_, by norm_num [srLow]⟩
  norm_num [search_with_metadata_filter, pyOrNat, pyOrQ, convert_to_search_results,
    ptLow, srLow]
